import Mathlib

/-!
Verification development for the request-counting and caching subsystem of
the user-activity-tracker Go repository.

The shallow embedding below translates, from the source:
- the `CacheManager` of `internal/cache` (file `internal/services/auth_service.go`,
  second document): two-tier cache with local tier, optional Redis remote tier,
  atomic remote `IncrBy`, local fetch-then-store fallback, pub/sub invalidation;
- the rate-limit middleware of `internal/middleware/auth_middleware.go`;
- the top-clients handler of `internal/handlers/client_handler.go`;
- shard assignment of `internal/database/database.go` and config parsing of
  `configs` (`internal/models/models.go`, second document).

Modelling conventions:
- Go maps keyed by strings become association lists `List (String × _)`.
- Serialized bytes are represented by the Go value they decode to; `json.Marshal`
  of the values used by this repository is faithful and never fails, and
  `json.Unmarshal` of a marshaled value into a matching target recovers it.
  A local-tier entry backfilled from remote bytes (`[]byte`) is tagged `.raw`:
  re-marshalling a Go `[]byte` produces a base64 JSON string, so decoding it into
  the struct targets used by this repository fails, which the model records as a
  decode error on a local `.raw` hit.
- Time is `Nat` seconds; 5 minutes = 300, 1 hour = 3600.
- `context.WithTimeout` failures and network errors are modelled by a single
  reachability flag `remoteUp`; `redisAvail` models `cm.redisClient != nil`
  (decided once at construction, per process).
-/

namespace UAT

/-- Lookup in an association list keyed by strings (first match wins, as in a Go map
where keys are unique). -/
def alookup {α : Type} : List (String × α) → String → Option α
  | [], _ => none
  | (k2, v) :: rest, k => if k2 = k then some v else alookup rest k

/-- Remove every binding of a key from an association list. -/
def aerase {α : Type} : List (String × α) → String → List (String × α)
  | [], _ => []
  | (k2, v) :: rest, k => if k2 = k then aerase rest k else (k2, v) :: aerase rest k

/-- Overwrite the binding of a key (Go map assignment / `cache.Set` / `redis.Set`). -/
def ainsert {α : Type} (l : List (String × α)) (k : String) (v : α) : List (String × α) :=
  (k, v) :: aerase l k

theorem alookup_aerase {α : Type} (l : List (String × α)) (k k2 : String) :
    alookup (aerase l k) k2 = if k2 = k then none else alookup l k2 := by
  induction l with
  | nil => simp [aerase, alookup]
  | cons p rest ih =>
    obtain ⟨k3, v⟩ := p
    by_cases h3 : k3 = k
    · subst h3
      rw [show aerase ((k3, v) :: rest) k3 = aerase rest k3 from by simp [aerase]]
      rw [ih]
      by_cases h2 : k2 = k3
      · simp [h2]
      · have h32 : ¬ (k3 = k2) := fun h => h2 h.symm
        simp [alookup, h2, h32]
    · rw [show aerase ((k3, v) :: rest) k = (k3, v) :: aerase rest k from by
        simp [aerase, h3]]
      by_cases h32 : k3 = k2
      · have h2k : ¬ (k2 = k) := fun h => h3 (h32.trans h)
        simp [alookup, h32, h2k]
      · simp [alookup, h32, ih]

theorem alookup_ainsert_self {α : Type} (l : List (String × α)) (k : String) (v : α) :
    alookup (ainsert l k v) k = some v := by
  simp [ainsert, alookup]

theorem alookup_ainsert_ne {α : Type} (l : List (String × α)) (k k2 : String) (v : α)
    (h : k2 ≠ k) : alookup (ainsert l k v) k2 = alookup l k2 := by
  have h2 : ¬ (k = k2) := fun hh => h hh.symm
  simp [ainsert, alookup, h2, alookup_aerase, h]

theorem alookup_aerase_of_none {α : Type} (l : List (String × α)) (k k2 : String)
    (h : alookup l k2 = none) : alookup (aerase l k) k2 = none := by
  rw [alookup_aerase]
  split <;> simp [h]

/-- One row of the top-clients aggregate (`client_id`, `name`, `request_count`). -/
structure TopClientRow where
  clientID : String
  name : String
  requestCount : Int
deriving DecidableEq

/-- `TopClientsResponse` of `client_handler.go`: the cached global aggregate,
carrying its generation timestamp `GeneratedAt`. -/
structure TopClientsResponse where
  period : String
  generatedAt : Nat
  topClients : List TopClientRow
  totalClients : Nat
deriving DecidableEq

/-- A Go value stored in a cache tier: an `int64` counter, a `TopClientsResponse`
aggregate, or some other serialized payload (kept abstract as a string). -/
inductive GoValue where
  | int (n : Int)
  | top (r : TopClientsResponse)
  | blob (s : String)
deriving DecidableEq

/-- A local-tier value: either a Go value stored directly by `Set`/the increment
fallback, or raw remote bytes written by `Get`'s backfill (`[]byte` in Go),
tagged with the value those bytes decode to. -/
inductive LocalVal where
  | v (x : GoValue)
  | raw (x : GoValue)
deriving DecidableEq

/-- A local-tier entry: value plus the TTL (seconds) it was stored with. -/
structure LocalEntry where
  val : LocalVal
  ttl : Nat
deriving DecidableEq

/-- A remote-tier entry: value plus optional expiry; `IncrBy` creates keys with
no TTL (`none`), `Set` always attaches one. -/
structure RemoteEntry where
  val : GoValue
  ttl : Option Nat
deriving DecidableEq

/-- Errors surfaced by CacheManager operations. -/
inductive CErr where
  | remoteFail
  | remoteNotInt
  | typeAssertFailure
deriving DecidableEq

abbrev LocalTier := List (String × LocalEntry)
abbrev RemoteTier := List (String × RemoteEntry)

/-- Composite state of one process's `CacheManager` plus the shared remote tier:
`redisAvail` is `cm.redisClient != nil` (fixed at construction), `remoteUp` is
whether remote calls currently succeed. -/
structure CMState where
  redisAvail : Bool
  remoteUp : Bool
  localT : LocalTier
  remoteT : RemoteTier
deriving DecidableEq

/-- Result of `CacheManager.Get`: `hit v` is `(true, nil)` with decoded value `v`;
`hitDecodeErr` is `(true, err)` (a local `.raw` entry re-marshals to a base64
string that fails to decode into the struct targets this repository uses);
`miss` is `(false, nil)`; `failed` is `(false, err)` from a remote error. -/
inductive GetRes where
  | hit (v : GoValue)
  | hitDecodeErr
  | miss
  | failed
deriving DecidableEq

/-- `CacheManager.Set` (auth_service.go cache document, lines 303-324): store in
the local cache unconditionally, then in Redis with the same TTL if available;
a remote failure is returned but does not undo the local write. -/
def cmSet (st : CMState) (key : String) (value : GoValue) (ttl : Nat) :
    Except CErr Unit × CMState :=
  let st1 := { st with localT := ainsert st.localT key ⟨.v value, ttl⟩ }
  if st1.redisAvail then
    if st1.remoteUp then
      (.ok (), { st1 with remoteT := ainsert st1.remoteT key ⟨value, some ttl⟩ })
    else (.error .remoteFail, st1)
  else (.ok (), st1)

/-- `CacheManager.Get` (lines 326-359): local tier first; on a local miss with
Redis available, fetch remote; on a remote hit backfill the local tier with the
raw bytes and a fixed 5-minute TTL; `redis.Nil` is a miss, other remote errors
return `(false, err)`. -/
def cmGet (st : CMState) (key : String) : GetRes × CMState :=
  match alookup st.localT key with
  | some e =>
    match e.val with
    | .v x => (.hit x, st)
    | .raw _ => (.hitDecodeErr, st)
  | none =>
    if st.redisAvail then
      if st.remoteUp then
        match alookup st.remoteT key with
        | none => (.miss, st)
        | some re =>
          (.hit re.val, { st with localT := ainsert st.localT key ⟨.raw re.val, 300⟩ })
      else (.failed, st)
    else (.miss, st)

/-- `CacheManager.Delete` (lines 361-376): delete from the local tier, then from
Redis if available; the remote error, if any, is the return value. -/
def cmDelete (st : CMState) (key : String) : Except CErr Unit × CMState :=
  let st1 := { st with localT := aerase st.localT key }
  if st1.redisAvail then
    if st1.remoteUp then
      (.ok (), { st1 with remoteT := aerase st1.remoteT key })
    else (.error .remoteFail, st1)
  else (.ok (), st1)

/-- `CacheManager.Increment` (lines 378-396): with Redis available, delegate to
the atomic `IncrBy` (missing key starts from 0 with no TTL; a non-integer payload
is a Redis error); otherwise fall back to a local fetch-then-store increment,
stored with the local cache's default 5-minute expiration. The fallback's
`val.(int64)` type assertion on a non-integer local value is modelled as an
error. -/
def cmIncrement (st : CMState) (key : String) (delta : Int) :
    Except CErr Int × CMState :=
  if st.redisAvail then
    if st.remoteUp then
      match alookup st.remoteT key with
      | none =>
        (.ok delta, { st with remoteT := ainsert st.remoteT key ⟨.int delta, none⟩ })
      | some e =>
        match e.val with
        | .int n =>
          (.ok (n + delta),
           { st with remoteT := ainsert st.remoteT key ⟨.int (n + delta), e.ttl⟩ })
        | _ => (.error .remoteNotInt, st)
    else (.error .remoteFail, st)
  else
    match alookup st.localT key with
    | none =>
      (.ok delta, { st with localT := ainsert st.localT key ⟨.v (.int delta), 300⟩ })
    | some e =>
      match e.val with
      | .v (.int n) =>
        (.ok (n + delta),
         { st with localT := ainsert st.localT key ⟨.v (.int (n + delta)), 300⟩ })
      | _ => (.error .typeAssertFailure, st)

/-- The invalidation event published on the `usage_updates` channel
(`CacheManager.PublishUpdate`, lines 398-414); the JSON transport is modelled by
the structured record, which `handleUpdateMessage` parses back. -/
structure InvalidationEvent where
  action : String
  clientID : String
  timestamp : Nat
deriving DecidableEq

/-- `CacheManager.PublishUpdate`: a no-op returning no event when Redis is nil or
the publish call fails; otherwise the event that will be delivered to every
subscriber. -/
def cmPublishUpdate (st : CMState) (clientID : String) (now : Nat) :
    Option InvalidationEvent :=
  if st.redisAvail then
    if st.remoteUp then some ⟨"usage_updated", clientID, now⟩ else none
  else none

/-- The deterministic set of derived keys deleted for an event subject
(`handleUpdateMessage`, lines 279-301): the client's daily-usage key, the global
top-clients aggregate key, and the client entry key. -/
def derivedKeys (clientID : String) : List String :=
  ["usage:daily:" ++ clientID, "usage:top:last24h", "client:" ++ clientID]

/-- `CacheManager.handleUpdateMessage`: on a parsed event, delete each derived
key of the subject through `Delete`, ignoring the returned errors. -/
def handleUpdateMessage (st : CMState) (ev : InvalidationEvent) : CMState :=
  (derivedKeys ev.clientID).foldl (fun s k => (cmDelete s k).2) st

/-! ### Rate-limit middleware (`internal/middleware/auth_middleware.go`) -/

/-- The hourly-bucket rate-limit key
`fmt.Sprintf("rate_limit:%s:%s", clientID, time.Now().Format("2006-01-02-15"))`;
the formatted hour string is passed in as `hourBucket`. -/
def rateLimitKey (clientID hourBucket : String) : String :=
  "rate_limit:" ++ clientID ++ ":" ++ hourBucket

/-- Outcome of one pass through `RateLimitMiddleware`: `allow limit remaining`
sets the `X-RateLimit-*` headers and calls `c.Next()`; `allowNoHeaders` is the
fail-open path (`c.Next()` straight after an Increment error); `deny` aborts
with HTTP 429 and the JSON body's `limit` and `remaining` fields. -/
inductive Decision where
  | allow (limit remaining : Int)
  | allowNoHeaders
  | deny (limit remaining : Int)
deriving DecidableEq

/-- `RateLimitMiddleware` (auth_middleware.go, lines 74-112) for an
authenticated client: `Increment(key, 1)`; on error, continue without rate
limiting; if the count is 1, `Set(key, count, time.Hour)` to attach the bucket
TTL; deny with `remaining: 0` when the count exceeds the configured limit,
otherwise allow with remaining = limit - count. -/
def rateLimitCheck (limit : Int) (st : CMState) (clientID hourBucket : String) :
    Decision × CMState :=
  let key := rateLimitKey clientID hourBucket
  match cmIncrement st key 1 with
  | (.error _, st1) => (.allowNoHeaders, st1)
  | (.ok count, st1) =>
    let st2 := if count = 1 then (cmSet st1 key (.int count) 3600).2 else st1
    if count > limit then (.deny limit 0, st2)
    else (.allow limit (limit - count), st2)

/-! ### Top-clients handler (`internal/handlers/client_handler.go`) -/

/-- The cache key of the global top-clients aggregate. -/
def topKey : String := "usage:top:last24h"

/-- Ambient inputs of one `GetTopClients` request: the current time, the
configured `CacheTTL`, and what the read-replica top-clients query would return
(`none` models a failing query). -/
structure HandlerCtx where
  now : Nat
  cacheTTL : Nat
  dbRows : Option (List TopClientRow)
deriving DecidableEq

/-- `ClientHandler.fetchTopClients` (lines 302-331): run the top-3 query; on
success build a `TopClientsResponse` with `GeneratedAt = time.Now()`. -/
def fetchTopClients (ctx : HandlerCtx) : Except Unit TopClientsResponse :=
  match ctx.dbRows with
  | none => .error ()
  | some rows => .ok ⟨"last_24_hours", ctx.now, rows, rows.length⟩

/-- `ClientHandler.refreshTopClientsCache` (lines 295-300): recompute; only on
success write the fresh value through `Set` with the configured `CacheTTL`;
on error leave the cache untouched (the error is dropped here). -/
def refreshTopClientsCache (ctx : HandlerCtx) (st : CMState) : CMState :=
  match fetchTopClients ctx with
  | .ok data => (cmSet st topKey (.top data) ctx.cacheTTL).2
  | .error _ => st

/-- Decoding a cached value into the `TopClientsResponse` target of
`GetTopClients`; payloads of another shape fail to decode into the struct. -/
def decodeTop : GoValue → Option TopClientsResponse
  | .top r => some r
  | _ => none

/-- Outcome of `GetTopClients`: HTTP 200 with a response, or HTTP 500. -/
inductive TopOutcome where
  | ok (r : TopClientsResponse)
  | serverError
deriving DecidableEq

/-- The tail of `GetTopClients` after the else branch: fetch fresh data and
return it, or report HTTP 500. Results are (outcome, background refreshes
spawned, final cache state). -/
def afterRefresh (ctx : HandlerCtx) (st : CMState) : TopOutcome × Nat × CMState :=
  match fetchTopClients ctx with
  | .ok r => (.ok r, 0, st)
  | .error _ => (.serverError, 0, st)

/-- `ClientHandler.GetTopClients` (lines 267-293): on a cache hit that decodes,
return it if its generation timestamp is younger than 5 minutes; if stale,
spawn `go refreshTopClientsCache()` (counted in the middle component) and fall
through to a synchronous `fetchTopClients`, returning the fresh result; on a
miss or a Get error, refresh synchronously and then fetch again. -/
def getTopClients (ctx : HandlerCtx) (st : CMState) : TopOutcome × Nat × CMState :=
  let res := cmGet st topKey
  match res.1 with
  | .hit v =>
    match decodeTop v with
    | some cached =>
      if ctx.now - cached.generatedAt < 300 then (.ok cached, 0, res.2)
      else
        match fetchTopClients ctx with
        | .ok fresh => (.ok fresh, 1, res.2)
        | .error _ => (.serverError, 1, res.2)
    | none => afterRefresh ctx (refreshTopClientsCache ctx res.2)
  | _ => afterRefresh ctx (refreshTopClientsCache ctx res.2)

/-! ### Multi-process cluster model (shared remote tier, per-process locals) -/

/-- One serving process: its `redisClient != nil` flag (which also decides
whether it subscribed to the invalidation channel at construction) and its
process-local cache tier. -/
structure Proc where
  redisAvail : Bool
  localT : LocalTier
deriving DecidableEq

/-- A cluster of processes sharing one remote tier. -/
structure Cluster where
  remoteUp : Bool
  remoteT : RemoteTier
  procs : List Proc
deriving DecidableEq

/-- The `CMState` seen by one process of a cluster. -/
def procState (c : Cluster) (p : Proc) : CMState :=
  ⟨p.redisAvail, c.remoteUp, p.localT, c.remoteT⟩

/-- Run `Increment` at the process with index `pid`, threading the shared
remote tier; an out-of-range `pid` is a no-op error (never reached under the
theorems' hypotheses). -/
def clusterIncrAux (remoteUp : Bool) (key : String) (delta : Int) :
    Nat → List Proc → RemoteTier → Except CErr Int × List Proc × RemoteTier
  | _, [], r => (.error .remoteFail, [], r)
  | 0, p :: ps, r =>
    let out := cmIncrement ⟨p.redisAvail, remoteUp, p.localT, r⟩ key delta
    (out.1, ⟨p.redisAvail, out.2.localT⟩ :: ps, out.2.remoteT)
  | n + 1, p :: ps, r =>
    let out := clusterIncrAux remoteUp key delta n ps r
    (out.1, p :: out.2.1, out.2.2)

/-- `Increment(key, delta)` issued by process `pid` of the cluster. -/
def clusterIncrement (c : Cluster) (pid : Nat) (key : String) (delta : Int) :
    Except CErr Int × Cluster :=
  let out := clusterIncrAux c.remoteUp key delta pid c.procs c.remoteT
  (out.1, { c with procs := out.2.1, remoteT := out.2.2 })

/-- Run a schedule of concurrent `Increment(key, 1)` calls, one per listed
process index, in the order the scheduler interleaved them. -/
def runIncrs (key : String) : List Nat → Cluster → Cluster
  | [], c => c
  | pid :: rest, c => runIncrs key rest (clusterIncrement c pid key 1).2

/-- The counter value an observer reads on the remote tier: a missing key counts
as 0 (the value before any increment), a non-integer payload as unreadable. -/
def getCounterR (r : RemoteTier) (key : String) : Option Int :=
  match alookup r key with
  | none => some 0
  | some e => match e.val with
    | .int n => some n
    | _ => none

/-- The counter value an observer reads on one process's local tier. -/
def getCounterL (l : LocalTier) (key : String) : Option Int :=
  match alookup l key with
  | none => some 0
  | some e => match e.val with
    | .v (.int n) => some n
    | _ => none

/-- Deliver one invalidation event to one process (`listenForUpdates` →
`handleUpdateMessage`): only processes that subscribed at construction
(`redisAvail = true`) consume the channel. `Delete` also touches the shared
remote tier, which is threaded through. -/
def procHandle (remoteUp : Bool) (r : RemoteTier) (p : Proc) (ev : InvalidationEvent) :
    Proc × RemoteTier :=
  if p.redisAvail then
    let st := handleUpdateMessage ⟨p.redisAvail, remoteUp, p.localT, r⟩ ev
    (⟨p.redisAvail, st.localT⟩, st.remoteT)
  else (p, r)

/-- Fan one published event out to every process, in subscription order. -/
def fanProcs (remoteUp : Bool) (ev : InvalidationEvent) :
    List Proc → RemoteTier → List Proc × RemoteTier
  | [], r => ([], r)
  | p :: ps, r =>
    let out := procHandle remoteUp r p ev
    let rest := fanProcs remoteUp ev ps out.2
    (out.1 :: rest.1, rest.2)

/-- One fan-out cycle of a published event across the whole cluster. -/
def clusterFanOut (c : Cluster) (ev : InvalidationEvent) : Cluster :=
  let out := fanProcs c.remoteUp ev c.procs c.remoteT
  { c with procs := out.1, remoteT := out.2 }

/-- `PublishUpdate(clientID)` issued by process `pid`, followed by one fan-out
cycle when the publish succeeded (at-least-once delivery, every subscriber
including the publisher). -/
def clusterPublishInvalidation (c : Cluster) (pid : Nat) (clientID : String)
    (now : Nat) : Cluster :=
  match c.procs.get? pid with
  | none => c
  | some p =>
    match cmPublishUpdate (procState c p) clientID now with
    | none => c
    | some ev => clusterFanOut c ev

/-! ### Shard assignment and configuration (`internal/database/database.go`,
`configs` document of `internal/models/models.go`) -/

/-- Value of a run of decimal digits, most significant first. -/
def digitsVal (cs : List Char) : Int :=
  cs.foldl (fun acc c => acc * 10 + ((c.toNat : Int) - 48)) 0

/-- `strconv.Atoi` on the plain base-10 strings relevant here: optional sign
followed by at least one digit; anything else is a parse error. -/
def atoiGo (s : String) : Option Int :=
  match s.data with
  | [] => none
  | '-' :: rest =>
    if rest ≠ [] ∧ rest.all (·.isDigit) then some (-(digitsVal rest)) else none
  | '+' :: rest =>
    if rest ≠ [] ∧ rest.all (·.isDigit) then some (digitsVal rest) else none
  | cs => if cs.all (·.isDigit) then some (digitsVal cs) else none

/-- `configs.parseInt`: `strconv.Atoi`, with every parse error silently mapped
to 0. -/
def parseIntGo (s : String) : Int :=
  match atoiGo s with
  | some n => n
  | none => 0

/-- `configs.getEnv`: the environment value when set and non-empty, otherwise
the default. -/
def getEnvD (v : Option String) (dflt : String) : String :=
  match v with
  | some s => if s = "" then dflt else s
  | none => dflt

/-- `configs.LoadConfig`, restricted to the `ShardCount` field: parse
`SHARD_COUNT` (default "4"); `LoadConfig` performs no validation and always
returns a nil error, so the result is unconditionally `.ok`. -/
def loadConfigShardCount (shardEnv : Option String) : Except String Int :=
  .ok (parseIntGo (getEnvD shardEnv "4"))

/-- The hash of `DBManager.GetShardForClient` (database.go, lines 100-107):
sum of the rune values of the full client id. -/
def shardHash (clientID : String) : Int :=
  clientID.data.foldl (fun acc c => acc + (c.toNat : Int)) 0

/-- `DBManager.GetShardForClient`: `hash % ShardCount` with Go's truncated
`%`; `none` models the run-time integer-divide-by-zero panic when
`ShardCount = 0`. -/
def getShardForClient (clientID : String) (shardCount : Int) : Option Int :=
  if shardCount = 0 then none
  else some (Int.tmod (shardHash clientID) shardCount)

/-! ### Helper lemmas -/

/-- `Delete` always erases the key from the local tier, whatever the remote
flags and remote outcome. -/
theorem cmDelete_localT (st : CMState) (key : String) :
    (cmDelete st key).2.localT = aerase st.localT key := by
  unfold cmDelete
  by_cases hra : st.redisAvail <;> by_cases hru : st.remoteUp <;> simp [hra, hru]

/-- After one `handleUpdateMessage`, every derived key of the event's subject is
absent from the local tier. -/
theorem handleUpdate_derived_absent (st : CMState) (ev : InvalidationEvent)
    (k : String) (hk : k ∈ derivedKeys ev.clientID) :
    alookup (handleUpdateMessage st ev).localT k = none := by
  have h3 : handleUpdateMessage st ev
      = (cmDelete (cmDelete (cmDelete st
          ("usage:daily:" ++ ev.clientID)).2 "usage:top:last24h").2
          ("client:" ++ ev.clientID)).2 := rfl
  rw [h3, cmDelete_localT, cmDelete_localT, cmDelete_localT]
  simp only [derivedKeys, List.mem_cons, List.mem_singleton, List.not_mem_nil,
    or_false] at hk
  rcases hk with hk | hk | hk <;> subst hk <;> simp [alookup_aerase]

/-- Delivery of one event never leaves a derived key of its subject in any
subscribed process's local tier, and preserves each process's `redisAvail`. -/
theorem fanProcs_absent (remoteUp : Bool) (ev : InvalidationEvent) :
    ∀ (ps : List Proc) (r : RemoteTier) (q : Proc),
      q ∈ (fanProcs remoteUp ev ps r).1 → q.redisAvail = true →
      ∀ k ∈ derivedKeys ev.clientID, alookup q.localT k = none := by
  intro ps
  induction ps with
  | nil => intro r q hq; simp [fanProcs] at hq
  | cons p rest ih =>
    intro r q hq hqa k hk
    simp only [fanProcs, List.mem_cons] at hq
    rcases hq with hq | hq
    · subst hq
      unfold procHandle at hqa ⊢
      by_cases hpa : p.redisAvail
      · simp only [hpa, if_true]
        exact handleUpdate_derived_absent _ _ k hk
      · simp only [hpa, if_false] at hqa
        exact absurd hqa (by simpa using hpa)
    · exact ih _ _ hq hqa k hk

/-! ### Claims -/

/-- C6: round-trip — for all states, keys, values and TTLs, `Set(k, v, ttl)`
immediately followed by `Get(k)` returns found with a value equal to `v`; the
state is universally quantified, so this covers both the local-only
configuration (`redisAvail = false`) and the local+remote one. -/
theorem c6_round_trip :
    ∀ (st : CMState) (key : String) (v : GoValue) (ttl : Nat),
      (cmGet (cmSet st key v ttl).2 key).1 = .hit v := by
  intro st key v ttl
  unfold cmSet cmGet
  by_cases hra : st.redisAvail <;> by_cases hru : st.remoteUp <;>
    simp [hra, hru, alookup_ainsert_self]

/-- C9: the code accepts a shard count of 0 at startup and only fails at call
time — `LoadConfig` performs no validation (an unparsable or zero `SHARD_COUNT`
silently becomes 0 and still yields a nil error), and `GetShardForClient` then
evaluates `hash % 0`, an integer-divide-by-zero panic (modelled as `none`);
with a valid count the modulo is computed normally. -/
theorem c9_shard_count_not_validated :
    loadConfigShardCount (some "0") = .ok 0
      ∧ loadConfigShardCount (some "not-a-number") = .ok 0
      ∧ loadConfigShardCount none = .ok 4
      ∧ getShardForClient "client-a" 0 = none
      ∧ getShardForClient "client-a" 4 = some 1 :=
  ⟨rfl, rfl, rfl, rfl, rfl⟩

/-- C2: fail-open — whenever the Increment call made by the rate limiter fails
(here: remote tier configured but unreachable, so `IncrBy` returns an error),
the request is admitted with no rate headers and the state is untouched; and at
a counter already at the limit, the same check that denies with the remote tier
reachable instead admits when it is forced unreachable. -/
theorem c2_fail_open :
    (∀ (limit : Int) (st : CMState) (clientID hourBucket : String),
      st.redisAvail = true → st.remoteUp = false →
      rateLimitCheck limit st clientID hourBucket = (.allowNoHeaders, st))
    ∧ ((rateLimitCheck 3
          ⟨true, true, [], [(rateLimitKey "c" "h1", ⟨.int 3, some 3600⟩)]⟩
          "c" "h1").1 = .deny 3 0
        ∧ (rateLimitCheck 3
            ⟨true, false, [], [(rateLimitKey "c" "h1", ⟨.int 3, some 3600⟩)]⟩
            "c" "h1").1 = .allowNoHeaders) := by
  constructor
  · intro limit st clientID hourBucket hra hru
    simp [rateLimitCheck, cmIncrement, hra, hru]
  · exact ⟨by decide, by decide⟩

/-- Witness for C2 at a concrete input. -/
theorem c2_fail_open_witness :
    rateLimitCheck 3 ⟨true, false, [], []⟩ "c" "h"
      = (.allowNoHeaders, ⟨true, false, [], []⟩) :=
  c2_fail_open.1 3 ⟨true, false, [], []⟩ "c" "h" rfl rfl

/-- C5 counterexample: the claim's "backfill ... with a short TTL that is
distinct from and less than or equal to the original entry's TTL" is false.
The backfill TTL is a fixed 5 minutes (300 s) regardless of the original TTL:
an entry written through `Set` with a 30-second TTL (as the cache-warming code
does) is backfilled into a fresh process's local tier for 300 s, and
`¬ (300 ≤ 30)`. -/
theorem c5_backfill_ttl_counterexample :
    (alookup ((cmSet ⟨true, true, [], []⟩ "usage:top:last24h"
          (.blob "aggregate") 30).2).remoteT "usage:top:last24h"
        = some ⟨.blob "aggregate", some 30⟩)
      ∧ alookup
          (cmGet ⟨true, true, [],
              ((cmSet ⟨true, true, [], []⟩ "usage:top:last24h"
                (.blob "aggregate") 30).2).remoteT⟩
            "usage:top:last24h").2.localT "usage:top:last24h"
          = some ⟨.raw (.blob "aggregate"), 300⟩
      ∧ ¬ ((300 : Nat) ≤ 30) := by
  exact ⟨by decide, by decide, by decide⟩

/-- C5 (amended): `Get` checks the local tier first (a local hit leaves the
state untouched); on a local miss with the remote tier available, a remote hit
returns the value and backfills the local tier with a fixed 5-minute TTL (not
guaranteed to be ≤ the original entry's TTL); `Get` reports a miss only if the
local tier misses and, when the remote tier is consulted, the remote tier
misses too. -/
theorem c5_get_amended :
    ∀ (st : CMState) (key : String),
      (st.redisAvail = true → st.remoteUp = true →
        alookup st.localT key = none →
        ∀ re, alookup st.remoteT key = some re →
          cmGet st key
            = (.hit re.val,
               { st with localT := ainsert st.localT key ⟨.raw re.val, 300⟩ }))
      ∧ (∀ e, alookup st.localT key = some e → (cmGet st key).2 = st)
      ∧ ((cmGet st key).1 = .miss →
          alookup st.localT key = none
            ∧ (st.redisAvail = true → st.remoteUp = true →
                alookup st.remoteT key = none)) := by
  intro st key
  refine ⟨?_, ?_, ?_⟩
  · intro hra hru hl re hre
    simp [cmGet, hl, hra, hru, hre]
  · intro e he
    unfold cmGet
    rw [he]
    rcases e with ⟨ev, ttl⟩
    cases ev <;> simp
  · intro hm
    unfold cmGet at hm
    rcases hl : alookup st.localT key with _ | e
    · rw [hl] at hm
      refine ⟨rfl, fun hra hru => ?_⟩
      rw [hra, hru] at hm
      rcases hr : alookup st.remoteT key with _ | re
      · rfl
      · rw [hr] at hm; simp at hm
    · rw [hl] at hm
      rcases e with ⟨ev, ttl⟩
      cases ev <;> simp at hm

/-- Witness for C5's amended theorem at a concrete input. -/
theorem c5_get_amended_witness :
    cmGet ⟨true, true, [], [("x", ⟨.int 2, some 60⟩)]⟩ "x"
      = (.hit (.int 2),
         ⟨true, true, ainsert [] "x" ⟨.raw (.int 2), 300⟩,
          [("x", ⟨.int 2, some 60⟩)]⟩) :=
  (c5_get_amended ⟨true, true, [], [("x", ⟨.int 2, some 60⟩)]⟩ "x").1
    rfl rfl rfl ⟨.int 2, some 60⟩ rfl

/-- C4 counterexample: the claim's stale-while-revalidate behaviour is false on
the code. With a cached aggregate whose generation timestamp (0) is 301 s old —
past the 5-minute staleness threshold, within its 3600 s TTL — `GetTopClients`
does not return the old cached value: it spawns a background refresh and then
blocks on a synchronous recomputation, returning the fresh value (generation
timestamp 301). And each of two concurrent stale reads from that state spawns
its own background refresh (no per-key dedup), so 2 refreshes are in flight,
refuting "at most one". -/
theorem c4_swr_counterexample :
    ((getTopClients ⟨301, 3600, some [⟨"c1", "n1", 5⟩]⟩
        ⟨false, false,
          [(topKey, ⟨.v (.top ⟨"last_24_hours", 0, [], 0⟩), 3600⟩)], []⟩).1
      = .ok ⟨"last_24_hours", 301, [⟨"c1", "n1", 5⟩], 1⟩)
      ∧ ((getTopClients ⟨301, 3600, some [⟨"c1", "n1", 5⟩]⟩
          ⟨false, false,
            [(topKey, ⟨.v (.top ⟨"last_24_hours", 0, [], 0⟩), 3600⟩)], []⟩).1
        ≠ .ok ⟨"last_24_hours", 0, [], 0⟩)
      ∧ ((getTopClients ⟨301, 3600, some [⟨"c1", "n1", 5⟩]⟩
          ⟨false, false,
            [(topKey, ⟨.v (.top ⟨"last_24_hours", 0, [], 0⟩), 3600⟩)], []⟩).2.1
          + (getTopClients ⟨301, 3600, some [⟨"c1", "n1", 5⟩]⟩
            ⟨false, false,
              [(topKey, ⟨.v (.top ⟨"last_24_hours", 0, [], 0⟩), 3600⟩)], []⟩).2.1
        = 2)
      ∧ ¬ ((2 : Nat) ≤ 1) := by
  exact ⟨by decide, by decide, by decide, by decide⟩

/-- C10: frame property of `Get` — it never writes to the remote tier or the
flags; every local entry other than the requested key is unchanged; and the
local tier is either fully unchanged or changed only at the requested key, by
backfilling the remote tier's value for that key after a remote hit. -/
theorem c10_get_frame :
    ∀ (st : CMState) (key : String),
      (cmGet st key).2.remoteT = st.remoteT
        ∧ (cmGet st key).2.redisAvail = st.redisAvail
        ∧ (cmGet st key).2.remoteUp = st.remoteUp
        ∧ (∀ k2, k2 ≠ key →
            alookup (cmGet st key).2.localT k2 = alookup st.localT k2)
        ∧ ((cmGet st key).2.localT = st.localT
            ∨ ∃ re, alookup st.remoteT key = some re
                ∧ (cmGet st key).1 = .hit re.val
                ∧ (cmGet st key).2.localT
                    = ainsert st.localT key ⟨.raw re.val, 300⟩) := by
  intro st key
  unfold cmGet
  rcases hl : alookup st.localT key with _ | e
  · by_cases hra : st.redisAvail
    · by_cases hru : st.remoteUp
      · rcases hr : alookup st.remoteT key with _ | re
        · simp [hra, hru, hr]
        · refine ⟨by simp [hra, hru, hr], by simp [hra, hru, hr],
            by simp [hra, hru, hr], ?_, ?_⟩
          · intro k2 hk2
            simp [hra, hru, hr, alookup_ainsert_ne _ _ _ _ hk2]
          · exact Or.inr ⟨re, rfl, by simp [hra, hru], by simp [hra, hru]⟩
      · simp [hra, hru]
    · simp [hra]
  · rcases e with ⟨ev, ttl⟩
    cases ev <;> simp

/-- Witness for C10 at a concrete input. -/
theorem c10_get_frame_witness :
    (cmGet ⟨true, true, [], [("a", ⟨.int 9, none⟩)]⟩ "a").2.remoteT
        = [("a", ⟨.int 9, none⟩)]
      ∧ alookup (cmGet ⟨true, true, [], [("a", ⟨.int 9, none⟩)]⟩ "a").2.localT "b"
          = alookup ([] : LocalTier) "b" := by
  have h := c10_get_frame ⟨true, true, [], [("a", ⟨.int 9, none⟩)]⟩ "a"
  exact ⟨h.1, h.2.2.2.1 "b" (by decide)⟩

/-- C8: if recomputation of the top-clients aggregate fails, the refresh leaves
the cache exactly as it was (never an empty or partial write), `GetTopClients`
performs no cache write beyond its read path, and the outcome is either the
HTTP 500 error reported to the caller or a still-fresh cached value served
without any recomputation. -/
theorem c8_refresh_failure_no_poison :
    ∀ (ctx : HandlerCtx) (st : CMState), ctx.dbRows = none →
      refreshTopClientsCache ctx st = st
        ∧ (getTopClients ctx st).2.2 = (cmGet st topKey).2
        ∧ ((getTopClients ctx st).1 = .serverError
            ∨ ∃ v r, (cmGet st topKey).1 = .hit v ∧ decodeTop v = some r
                ∧ ctx.now - r.generatedAt < 300
                ∧ (getTopClients ctx st).1 = .ok r) := by
  intro ctx st hdb
  have hf : fetchTopClients ctx = .error () := by
    simp [fetchTopClients, hdb]
  have hrf : ∀ s, refreshTopClientsCache ctx s = s := fun s => by
    simp [refreshTopClientsCache, hf]
  refine ⟨hrf st, ?_, ?_⟩
  · unfold getTopClients afterRefresh
    rcases hres : (cmGet st topKey).1 with v | _ | _ | _ <;>
      simp only [hres, hrf, hf]
    rcases hdec : decodeTop v with _ | cached <;> simp only [hdec]
    by_cases hfresh : ctx.now - cached.generatedAt < 300 <;> simp [hfresh]
  · unfold getTopClients afterRefresh
    rcases hres : (cmGet st topKey).1 with v | _ | _ | _ <;>
      simp only [hres, hrf, hf]
    · rcases hdec : decodeTop v with _ | cached <;> simp only [hdec]
      · simp
      · by_cases hfresh : ctx.now - cached.generatedAt < 300
        · simp only [if_pos hfresh]
          exact Or.inr ⟨v, cached, rfl, hdec, hfresh, rfl⟩
        · simp [hfresh]
    all_goals simp

/-- Witness for C8 at a concrete input. -/
theorem c8_refresh_failure_no_poison_witness :
    refreshTopClientsCache ⟨301, 3600, none⟩ ⟨false, false, [], []⟩
      = ⟨false, false, [], []⟩ :=
  (c8_refresh_failure_no_poison ⟨301, 3600, none⟩ ⟨false, false, [], []⟩ rfl).1

/-- C1: for every admission check that reaches a reachable remote tier with a
readable counter at value n, the rate limiter increments the hourly-bucket
counter to n+1 and denies with remaining=0 exactly when n+1 exceeds the
configured limit, otherwise allows with remaining = limit - (n+1); and
concretely, with limit=3, four checks for one client in one hour bucket allow
exactly the first three (remaining 2, 1, 0) and deny the fourth with
remaining=0, while a fifth check in the next hour bucket is allowed again. -/
theorem c1_rate_limit_admission :
    (∀ (limit : Int) (st : CMState) (clientID hourBucket : String) (n : Int),
      st.redisAvail = true → st.remoteUp = true →
      getCounterR st.remoteT (rateLimitKey clientID hourBucket) = some n →
      getCounterR (rateLimitCheck limit st clientID hourBucket).2.remoteT
          (rateLimitKey clientID hourBucket) = some (n + 1)
        ∧ (n + 1 > limit →
            (rateLimitCheck limit st clientID hourBucket).1 = .deny limit 0)
        ∧ (¬ n + 1 > limit →
            (rateLimitCheck limit st clientID hourBucket).1
              = .allow limit (limit - (n + 1))))
    ∧ ((rateLimitCheck 3 ⟨true, true, [], []⟩ "c" "h1").1 = .allow 3 2
        ∧ (rateLimitCheck 3
            (rateLimitCheck 3 ⟨true, true, [], []⟩ "c" "h1").2 "c" "h1").1
          = .allow 3 1
        ∧ (rateLimitCheck 3
            (rateLimitCheck 3
              (rateLimitCheck 3 ⟨true, true, [], []⟩ "c" "h1").2 "c" "h1").2
            "c" "h1").1 = .allow 3 0
        ∧ (rateLimitCheck 3
            (rateLimitCheck 3
              (rateLimitCheck 3
                (rateLimitCheck 3 ⟨true, true, [], []⟩ "c" "h1").2 "c" "h1").2
              "c" "h1").2 "c" "h1").1 = .deny 3 0
        ∧ (rateLimitCheck 3
            (rateLimitCheck 3
              (rateLimitCheck 3
                (rateLimitCheck 3
                  (rateLimitCheck 3 ⟨true, true, [], []⟩ "c" "h1").2 "c" "h1").2
                "c" "h1").2 "c" "h1").2 "c" "h2").1 = .allow 3 2) := by
  constructor
  · intro limit st clientID hourBucket n hra hru hn
    obtain ⟨t, hinc⟩ : ∃ t, cmIncrement st (rateLimitKey clientID hourBucket) 1
        = (.ok (n + 1),
          { st with remoteT :=
              ainsert st.remoteT (rateLimitKey clientID hourBucket) ⟨.int (n + 1), t⟩ }) := by
      unfold cmIncrement
      rcases halk : alookup st.remoteT (rateLimitKey clientID hourBucket) with _ | e
      · have hn0 : n = 0 := by simp [getCounterR, halk] at hn; omega
        subst hn0
        exact ⟨none, by simp [hra, hru, halk]⟩
      · rcases e with ⟨ev, ttl⟩
        rcases ev with m | r | s
        · have hnm : n = m := by simp [getCounterR, halk] at hn; omega
          subst hnm
          exact ⟨ttl, by simp [hra, hru, halk]⟩
        · exfalso; simp [getCounterR, halk] at hn
        · exfalso; simp [getCounterR, halk] at hn
    simp only [rateLimitCheck, hinc]
    refine ⟨?_, ?_, ?_⟩
    · split_ifs <;> simp [cmSet, hra, hru, getCounterR, alookup_ainsert_self]
    · intro hgt
      split_ifs <;> rfl
    · intro hle
      split_ifs <;> rfl
  · refine ⟨by decide, by decide, by decide, by decide, by decide⟩

/-- Witness for C1 at a concrete input. -/
theorem c1_rate_limit_admission_witness :
    getCounterR (rateLimitCheck 3 ⟨true, true, [], []⟩ "c" "h").2.remoteT
        (rateLimitKey "c" "h") = some (0 + 1)
      ∧ (rateLimitCheck 3 ⟨true, true, [], []⟩ "c" "h").1 = .allow 3 (3 - (0 + 1)) := by
  have h := c1_rate_limit_admission.1 3 ⟨true, true, [], []⟩ "c" "h" 0 rfl rfl rfl
  exact ⟨h.1, h.2.2 (by decide)⟩

/-- C4 (amended): a read of a cached aggregate whose generation timestamp is at
least the 5-minute staleness threshold old spawns exactly one background
refresh per read (so N concurrent stale reads spawn N refreshes — there is no
per-key dedup), then blocks on a synchronous recomputation and returns the
freshly computed value (generation timestamp = now), not the old cached one;
the stale read itself performs no cache write beyond the read path, while the
refresh writes the fresh value back through `Set` with an updated generation
timestamp. -/
theorem c4_swr_amended :
    ∀ (ctx : HandlerCtx) (st : CMState) (v : GoValue) (cached : TopClientsResponse),
      (cmGet st topKey).1 = .hit v → decodeTop v = some cached →
      300 ≤ ctx.now - cached.generatedAt →
      (getTopClients ctx st).2.1 = 1
        ∧ (∀ rows, ctx.dbRows = some rows →
            (getTopClients ctx st).1
              = .ok ⟨"last_24_hours", ctx.now, rows, rows.length⟩)
        ∧ (∀ rows, ctx.dbRows = some rows →
            refreshTopClientsCache ctx st
              = (cmSet st topKey
                  (.top ⟨"last_24_hours", ctx.now, rows, rows.length⟩)
                  ctx.cacheTTL).2)
        ∧ (getTopClients ctx st).2.2 = (cmGet st topKey).2 := by
  intro ctx st v cached hres hdec hstale
  have hfr : ¬ ctx.now - cached.generatedAt < 300 := by omega
  refine ⟨?_, ?_, ?_, ?_⟩
  · unfold getTopClients
    simp only [hres, hdec, if_neg hfr]
    rcases hf : fetchTopClients ctx with e | r <;> simp
  · intro rows hrows
    have hf : fetchTopClients ctx = .ok ⟨"last_24_hours", ctx.now, rows, rows.length⟩ := by
      simp [fetchTopClients, hrows]
    unfold getTopClients
    simp only [hres, hdec, if_neg hfr, hf]
  · intro rows hrows
    have hf : fetchTopClients ctx = .ok ⟨"last_24_hours", ctx.now, rows, rows.length⟩ := by
      simp [fetchTopClients, hrows]
    unfold refreshTopClientsCache
    simp only [hf]
  · unfold getTopClients
    simp only [hres, hdec, if_neg hfr]
    rcases hf : fetchTopClients ctx with e | r <;> simp

/-- Witness for C4's amended theorem at a concrete input. -/
theorem c4_swr_amended_witness :
    (getTopClients ⟨301, 3600, some [⟨"c1", "n1", 5⟩]⟩
        ⟨false, false,
          [(topKey, ⟨.v (.top ⟨"last_24_hours", 0, [], 0⟩), 3600⟩)], []⟩).2.1 = 1
      ∧ (getTopClients ⟨301, 3600, some [⟨"c1", "n1", 5⟩]⟩
          ⟨false, false,
            [(topKey, ⟨.v (.top ⟨"last_24_hours", 0, [], 0⟩), 3600⟩)], []⟩).1
        = .ok ⟨"last_24_hours", 301, [⟨"c1", "n1", 5⟩], 1⟩ := by
  have h := c4_swr_amended ⟨301, 3600, some [⟨"c1", "n1", 5⟩]⟩
    ⟨false, false, [(topKey, ⟨.v (.top ⟨"last_24_hours", 0, [], 0⟩), 3600⟩)], []⟩
    (.top ⟨"last_24_hours", 0, [], 0⟩) ⟨"last_24_hours", 0, [], 0⟩
    (by decide) rfl (by decide)
  exact ⟨h.1, h.2.1 [⟨"c1", "n1", 5⟩] rfl⟩

/-- C7: after a successful `PublishInvalidation` for subject C (publisher's
process has Redis available and the remote tier is reachable), one fan-out
cycle delivers the event to every subscribed process (those constructed with
Redis available, the publisher included), and the handler deletes the full
deterministic derived-key set of C — the client's daily-usage key, the global
top-clients aggregate key, and the client entry key — so all of them are absent
from every subscribed process's local tier. -/
theorem c7_invalidation_completeness :
    ∀ (c : Cluster) (pid : Nat) (clientID : String) (now : Nat) (p : Proc),
      c.procs.get? pid = some p → p.redisAvail = true → c.remoteUp = true →
      ∀ q ∈ (clusterPublishInvalidation c pid clientID now).procs,
        q.redisAvail = true →
        ∀ k ∈ derivedKeys clientID, alookup q.localT k = none := by
  intro c pid clientID now p hp hpa hcu q hq hqa k hk
  have hev : cmPublishUpdate (procState c p) clientID now
      = some ⟨"usage_updated", clientID, now⟩ := by
    simp [cmPublishUpdate, procState, hpa, hcu]
  rw [clusterPublishInvalidation] at hq
  rw [hp] at hq
  simp only [] at hq
  rw [hev] at hq
  simp only [] at hq
  simp only [clusterFanOut] at hq
  exact fanProcs_absent c.remoteUp ⟨"usage_updated", clientID, now⟩
    c.procs c.remoteT q hq hqa k hk

/-- Witness for C7 at a concrete input. -/
theorem c7_invalidation_completeness_witness :
    alookup ((clusterPublishInvalidation
        ⟨true, [], [⟨true, [("usage:daily:bob", ⟨.v (.int 7), 60⟩)]⟩]⟩
        0 "bob" 5).procs.headD ⟨false, []⟩).localT "usage:daily:bob" = none := by
  have h := c7_invalidation_completeness
    ⟨true, [], [⟨true, [("usage:daily:bob", ⟨.v (.int 7), 60⟩)]⟩]⟩
    0 "bob" 5 ⟨true, [("usage:daily:bob", ⟨.v (.int 7), 60⟩)]⟩ rfl rfl rfl
  exact h _ (by decide) (by decide) "usage:daily:bob" (by decide)

/-- A remote-mode `Increment(k, 1)` is one atomic step: it leaves every process
untouched and bumps the shared counter by exactly 1. -/
theorem clusterIncrAux_remote (key : String) :
    ∀ (pid : Nat) (ps : List Proc) (r : RemoteTier) (p : Proc) (m : Int),
      ps.get? pid = some p → p.redisAvail = true →
      getCounterR r key = some m →
      ∃ r2, clusterIncrAux true key 1 pid ps r = (.ok (m + 1), ps, r2)
        ∧ getCounterR r2 key = some (m + 1) := by
  intro pid
  induction pid with
  | zero =>
    intro ps r p m hp hpa hm
    cases ps with
    | nil => simp at hp
    | cons p0 rest =>
      have hp0 : p0 = p := by simpa using hp
      subst hp0
      obtain ⟨pa, pl⟩ := p0
      have hpa2 : pa = true := hpa
      subst hpa2
      rcases halk : alookup r key with _ | e
      · have hm0 : m = 0 := by simp [getCounterR, halk] at hm; omega
        subst hm0
        refine ⟨ainsert r key ⟨.int 1, none⟩, ?_, ?_⟩
        · simp [clusterIncrAux, cmIncrement, halk]
        · simp [getCounterR, alookup_ainsert_self]
      · rcases e with ⟨ev, ttl⟩
        rcases ev with j | rr | ss
        · have hmj : m = j := by simp [getCounterR, halk] at hm; omega
          subst hmj
          refine ⟨ainsert r key ⟨.int (m + 1), ttl⟩, ?_, ?_⟩
          · simp [clusterIncrAux, cmIncrement, halk]
          · simp [getCounterR, alookup_ainsert_self]
        · exfalso; simp [getCounterR, halk] at hm
        · exfalso; simp [getCounterR, halk] at hm
  | succ n ih =>
    intro ps r p m hp hpa hm
    cases ps with
    | nil => simp at hp
    | cons p0 rest =>
      obtain ⟨r2, heq, hc⟩ := ih rest r p m (by simpa using hp) hpa hm
      refine ⟨r2, ?_, hc⟩
      simp [clusterIncrAux, heq]

/-- Any interleaving of remote-mode `Increment(k, 1)` calls adds exactly its
length to the shared counter. -/
theorem runIncrs_remote (key : String) :
    ∀ (sched : List Nat) (c : Cluster) (pre : Int),
      c.remoteUp = true →
      (∀ pid ∈ sched, ∃ p, c.procs.get? pid = some p ∧ p.redisAvail = true) →
      getCounterR c.remoteT key = some pre →
      getCounterR (runIncrs key sched c).remoteT key
        = some (pre + sched.length) := by
  intro sched
  induction sched with
  | nil =>
    intro c pre hcu hall hpre
    simpa [runIncrs] using hpre
  | cons pid rest ih =>
    intro c pre hcu hall hpre
    obtain ⟨p, hp, hpa⟩ := hall pid (by simp)
    obtain ⟨r2, heq, hc2⟩ :=
      clusterIncrAux_remote key pid c.procs c.remoteT p pre hp hpa hpre
    have hstep : (clusterIncrement c pid key 1).2 = { c with remoteT := r2 } := by
      simp [clusterIncrement, hcu, heq]
    rw [runIncrs, hstep]
    have hrest := ih { c with remoteT := r2 } (pre + 1) hcu
      (fun pid2 h2 => hall pid2 (List.mem_cons_of_mem _ h2)) hc2
    have hgoal : pre + (((pid :: rest).length : Nat) : Int)
        = pre + 1 + (rest.length : Int) := by
      push_cast [List.length_cons]
      ring
    rw [hgoal]
    exact hrest

/-- C3: with the remote tier reachable, `Increment` delegates to the atomic
remote add and loses no updates — any interleaving of N concurrent
`Increment(k, 1)` calls from Redis-available processes leaves the shared
counter at its pre-sequence value plus N; under forced local fallback the
guarantee is weaker as documented — after two concurrent increments from two
fallback processes (pre-sequence value 0) every process's local counter reads
1, and no process observes the no-lost-updates value 2. -/
theorem c3_increment_atomicity :
    (∀ (key : String) (sched : List Nat) (c : Cluster) (pre : Int),
      c.remoteUp = true →
      (∀ pid ∈ sched, ∃ p, c.procs.get? pid = some p ∧ p.redisAvail = true) →
      getCounterR c.remoteT key = some pre →
      getCounterR (runIncrs key sched c).remoteT key
        = some (pre + sched.length))
    ∧ ((∀ p ∈ (runIncrs "k" [0, 1] ⟨false, [], [⟨false, []⟩, ⟨false, []⟩]⟩).procs,
          getCounterL p.localT "k" = some 1)
        ∧ ¬ ∃ p ∈ (runIncrs "k" [0, 1] ⟨false, [], [⟨false, []⟩, ⟨false, []⟩]⟩).procs,
            getCounterL p.localT "k" = some 2) := by
  refine ⟨runIncrs_remote, by decide, by decide⟩

/-- Witness for C3 at a concrete input. -/
theorem c3_increment_atomicity_witness :
    getCounterR (runIncrs "k" [0] ⟨true, [], [⟨true, []⟩]⟩).remoteT "k"
      = some (0 + ([0] : List Nat).length) := by
  refine c3_increment_atomicity.1 "k" [0] ⟨true, [], [⟨true, []⟩]⟩ 0 rfl ?_ rfl
  intro pid hpid
  have h0 : pid = 0 := by simpa using hpid
  subst h0
  exact ⟨⟨true, []⟩, rfl, rfl⟩

end UAT
